import Mathlib

/-!
# Rainbow Snake Game — verification of the core game logic

Shallow embedding of the game-state machine and score store of the
rainbow-snake-game repository (`SnakeGame` React component).  The grid is
`gridSize × gridSize` with `gridSize = 20`; the snake is a list of cells,
head first; the food is a single cell.  Randomness (the stream of cells
drawn by `Math.random`) is modelled as an explicit function `Nat → Cell`,
and the possibly non-terminating retry loop of `generateFood` is modelled
with explicit fuel, `none` meaning "did not terminate within the fuel".
-/

namespace Snake

/-- A grid cell, the JS object `{ x, y }` with integer coordinates. -/
structure Cell where
  x : Nat
  y : Nat
deriving DecidableEq

/-- The four movement directions, the JS strings 'UP' | 'DOWN' | 'LEFT' | 'RIGHT'. -/
inductive Direction where
  | UP
  | DOWN
  | LEFT
  | RIGHT
deriving DecidableEq

/-- `const gridSize = 20`. -/
def gridSize : Nat := 20

/-- The part of the component state that the core logic reads and writes
(`snake`, `food`, `direction`, `gameStarted`, `gameOver`, `paused`, `score`,
`showNameInput`).  Rendering-only state (level animation, sound flags, …) is
out of scope. -/
structure GameState where
  snake : List Cell
  food : Cell
  direction : Direction
  gameStarted : Bool
  gameOver : Bool
  paused : Bool
  score : Nat
  showNameInput : Bool
deriving DecidableEq

/-- The head-movement switch inside `moveSnake`: move one cell in the given
direction, wrapping from `gridSize-1` to `0` and vice versa. -/
def moveHead (d : Direction) (h : Cell) : Cell :=
  match d with
  | .UP => { h with y := if h.y = 0 then gridSize - 1 else h.y - 1 }
  | .DOWN => { h with y := if h.y = gridSize - 1 then 0 else h.y + 1 }
  | .LEFT => { h with x := if h.x = 0 then gridSize - 1 else h.x - 1 }
  | .RIGHT => { h with x := if h.x = gridSize - 1 then 0 else h.x + 1 }

/-- `newSnake.some((segment, index) => index > 0 && segment.x === head.x &&
segment.y === head.y)`: the new head hits a body cell at index `> 0`. -/
def collidesSelf (body : List Cell) (head : Cell) : Bool :=
  (body.drop 1).any (fun segment => segment.x == head.x && segment.y == head.y)

/-- `snake.some(segment => segment.x === c.x && segment.y === c.y)`. -/
def isOnSnake (snake : List Cell) (c : Cell) : Bool :=
  snake.any (fun segment => segment.x == c.x && segment.y == c.y)

/-- The body of `generateFood`, with the random draws made explicit:
draw `draws i`; if it lands on the snake and the snake still leaves at least
one cell free (`snake.length < gridSize * gridSize - 1`), retry with the next
draw; otherwise return the draw.  The `fuel` argument bounds the recursion
depth that the JS recursion does not bound: `none` means the recursion did
not finish within `fuel` steps. -/
def generateFoodAux (snake : List Cell) (draws : Nat → Cell) : Nat → Nat → Option Cell
  | _, 0 => none
  | i, fuel + 1 =>
    let newFood := draws i
    if isOnSnake snake newFood && decide (snake.length < gridSize * gridSize - 1) then
      generateFoodAux snake draws (i + 1) fuel
    else
      some newFood

/-- `generateFood()` starting from the first draw.  It reads the snake from
`gameStateRef.current`, hence the explicit `snake` argument: the caller passes
whatever snapshot the ref holds at call time. -/
def generateFood (snake : List Cell) (draws : Nat → Cell) (fuel : Nat) : Option Cell :=
  generateFoodAux snake draws 0 fuel

/-- `generateFood` terminates on this snake snapshot and draw stream: some
amount of fuel suffices. -/
def generateFoodTerminates (snake : List Cell) (draws : Nat → Cell) : Prop :=
  ∃ fuel, (generateFood snake draws fuel).isSome

/-- One `moveSnake()` call.  Reads the ref snapshot `s`, computes the new
head with wraparound, checks self-collision against the whole pre-move snake
(`newSnake`, indices `> 0`), then either ends the game, or grows (food eaten:
score `+1` and `setFood(generateFood())`, where `generateFood` sees the
*pre-move* snake still held by `gameStateRef.current`), or moves (tail
popped).  `none` only when food regeneration ran out of fuel. -/
def moveSnake (draws : Nat → Cell) (fuel : Nat) (s : GameState) : Option GameState :=
  match s.snake with
  | [] => some s
  | oldHead :: _ =>
    let head := moveHead s.direction oldHead
    if collidesSelf s.snake head then
      some { s with gameOver := true, showNameInput := true }
    else
      let updatedSnake := head :: s.snake
      if head.x == s.food.x && head.y == s.food.y then
        (generateFood s.snake draws fuel).map fun newFood =>
          { s with snake := updatedSnake, score := s.score + 1, food := newFood }
      else
        some { s with snake := updatedSnake.dropLast }

/-- One pass of the game-loop effect: the effect body runs (and so a tick can
fire) only when `gameStarted && !gameOver && !paused`; otherwise the state is
untouched. -/
def gameLoopStep (draws : Nat → Cell) (fuel : Nat) (s : GameState) : Option GameState :=
  if s.gameStarted && !s.gameOver && !s.paused then
    moveSnake draws fuel s
  else
    some s

/-- The condition guarding `setDirection(newDir)` in `handleDirectionChange`:
the requested direction is not the direct opposite of the current one. -/
def turnAllowed (current newDir : Direction) : Bool :=
  (newDir == .UP && current != .DOWN) ||
  (newDir == .DOWN && current != .UP) ||
  (newDir == .LEFT && current != .RIGHT) ||
  (newDir == .RIGHT && current != .LEFT)

/-- The direct opposite of a direction. -/
def opposite : Direction → Direction
  | .UP => .DOWN
  | .DOWN => .UP
  | .LEFT => .RIGHT
  | .RIGHT => .LEFT

/-- `handleDirectionChange(newDir)`.  All checks read the single snapshot `s`
taken from `gameStateRef.current` at entry: if the game is neither started
nor over, `setGameStarted(true)` fires; then, unless the snapshot is over or
paused, the direction is set when the turn is not a reversal. -/
def handleDirectionChange (newDir : Direction) (s : GameState) : GameState :=
  let started := if !s.gameStarted && !s.gameOver then true else s.gameStarted
  if s.gameOver || s.paused then
    { s with gameStarted := started }
  else if turnAllowed s.direction newDir then
    { s with gameStarted := started, direction := newDir }
  else
    { s with gameStarted := started }

/-- The keys `handleKeyPress` distinguishes: an arrow key carrying a
direction, 'p'/'P', 'x'/'X', and anything else. -/
inductive Key where
  | arrow (d : Direction)
  | keyP
  | keyX
  | other
deriving DecidableEq

/-- `handleKeyPress(e)`.  Every check reads the single snapshot `s` taken
from `gameStateRef.current` at entry.  In order: an arrow key starts a game
that is neither started nor over; 'p' toggles pause (when started and not
over) and returns; 'x' ends a running game and returns; then the running
guard `!state.gameStarted || state.gameOver || state.paused` — still seeing
the *stale* snapshot, in which `setGameStarted(true)` is not yet visible —
returns before the arrow switch, so the game-starting key press never
reaches `setDirection`; finally a non-reversing arrow sets the direction. -/
def handleKeyPress (k : Key) (s : GameState) : GameState :=
  let started :=
    if !s.gameStarted && !s.gameOver then
      match k with
      | .arrow _ => true
      | _ => s.gameStarted
    else s.gameStarted
  match k with
  | .keyP =>
    if s.gameStarted && !s.gameOver then
      { s with gameStarted := started, paused := !s.paused }
    else
      { s with gameStarted := started }
  | .keyX =>
    if s.gameStarted && !s.gameOver && !s.paused then
      { s with gameStarted := started, gameOver := true, showNameInput := true }
    else
      { s with gameStarted := started }
  | .arrow d =>
    if !s.gameStarted || s.gameOver || s.paused then
      { s with gameStarted := started }
    else if turnAllowed s.direction d then
      { s with gameStarted := started, direction := d }
    else
      { s with gameStarted := started }
  | .other =>
    { s with gameStarted := started }

/-- `calculateSpeed(lvl)`: `Math.round(initialSpeed - (lvl - 1) / 9 *
(initialSpeed - 70))` with `initialSpeed = 165`.  The JS computation is done
in binary floating point; for the levels `1..10` actually passed to it the
exact values have fractional parts that are multiples of `1/9`, far from any
rounding boundary, so exact rational arithmetic with `round` (round half up,
as `Math.round`) yields the same integers. -/
def calculateSpeed (lvl : Int) : Int :=
  let initialSpeed : ℚ := 165
  let maxSpeedReduction : ℚ := initialSpeed - 70
  let reduction : ℚ := (lvl - 1) / 9 * maxSpeedReduction
  round (initialSpeed - reduction)

/-! ## Score store -/

/-- One high-score entry, the JS object `{ name, score }` built in
`saveHighScore`.  Scores are the game score, a non-negative integer. -/
structure ScoreEntry where
  name : String
  score : Nat
deriving DecidableEq

/-- `playerName.trim()`: strip leading and trailing whitespace, modelled on
the character list underlying the string (ECMAScript trims whitespace and
line terminators; `Char.isWhitespace` covers the ones relevant here). -/
def jsTrim (s : String) : String :=
  ⟨((s.data.dropWhile Char.isWhitespace).reverse.dropWhile Char.isWhitespace).reverse⟩

/-- `playerName.trim() || 'Anonymous'`. -/
def defaultName (playerName : String) : String :=
  if jsTrim playerName = "" then "Anonymous" else jsTrim playerName

/-- Insert an entry into an already-processed list, before the first entry of
score `≤` its own.  Folding this over the list (`sortDesc`) is a stable
insertion sort descending by score: it computes exactly the result of the JS
`sort((a, b) => b.score - a.score)`, which ECMAScript requires to be a stable
sort by that comparator. -/
def insertDesc (x : ScoreEntry) : List ScoreEntry → List ScoreEntry
  | [] => [x]
  | y :: ys => if y.score ≤ x.score then x :: y :: ys else y :: insertDesc x ys

/-- Stable sort descending by score: the result of
`sort((a, b) => b.score - a.score)`. -/
def sortDesc : List ScoreEntry → List ScoreEntry
  | [] => []
  | x :: xs => insertDesc x (sortDesc xs)

/-- `saveHighScore()`: `[...highScores, { name, score }]
.sort((a, b) => b.score - a.score).slice(0, 5)`.  The result is both shown
and persisted (`localStorage.setItem`) unchanged, so we model it as the
returned list. -/
def saveHighScore (highScores : List ScoreEntry) (playerName : String) (score : Nat) :
    List ScoreEntry :=
  let name := defaultName playerName
  (sortDesc (highScores ++ [⟨name, score⟩])).take 5

/-! ## Persisted-data loading -/

/-- JSON values as produced by a successful `JSON.parse`.  Only the shape
matters to the loader; JS numbers are modelled by `Int` because the loader
merely tests `typeof item.score === 'number'`, never its value. -/
inductive JValue where
  | jnull
  | jbool (b : Bool)
  | jnum (n : Int)
  | jstr (s : String)
  | jarr (items : List JValue)
  | jobj (fields : List (String × JValue))

/-- `typeof item === 'object'`: true for objects, arrays and — a JS quirk —
`null`. -/
def typeofIsObject : JValue → Bool
  | .jnull => true
  | .jarr _ => true
  | .jobj _ => true
  | _ => false

/-- `item !== null`. -/
def isNotNull : JValue → Bool
  | .jnull => false
  | _ => true

/-- `key in item` for the keys `name` / `score`: an own property of an
object; arrays carry only index properties and `length`, never these keys. -/
def hasField (v : JValue) (key : String) : Bool :=
  match v with
  | .jobj fields => fields.any (fun f => f.1 == key)
  | _ => false

/-- Field lookup in an object (first binding wins, as in a parsed JSON
object). -/
def getField (v : JValue) (key : String) : Option JValue :=
  match v with
  | .jobj fields => (fields.find? (fun f => f.1 == key)).map (·.2)
  | _ => none

/-- `typeof item.score === 'number'`. -/
def scoreIsNumber (v : JValue) : Bool :=
  match getField v "score" with
  | some (.jnum _) => true
  | _ => false

/-- The per-element validation in the load effect: `typeof item === 'object'
&& item !== null && 'name' in item && 'score' in item &&
typeof item.score === 'number'`. -/
def isValidEntry (item : JValue) : Bool :=
  typeofIsObject item && isNotNull item && hasField item "name" &&
    hasField item "score" && scoreIsNumber item

/-- The high-score load effect.  `saved = none` models a missing key or a
`JSON.parse` exception (caught, list left empty); `some parsed` models a
successful parse.  The parsed value is kept exactly when it is an array all
of whose elements pass `isValidEntry`; anything else resets the store to the
empty list.  The function is total: the caller never observes a failure. -/
def loadHighScores (saved : Option JValue) : List JValue :=
  match saved with
  | none => []
  | some parsed =>
    match parsed with
    | .jarr items => if items.all isValidEntry then items else []
    | _ => []

/-! ## Comparison definitions and concrete states -/

/-- Modelled from the spec's words, for comparison with `moveHead`: one step
on the toroidal grid, each coordinate computed modulo `gridSize`. -/
def specMoveWrap (d : Direction) (h : Cell) : Cell :=
  match d with
  | .UP => { h with y := (h.y + gridSize - 1) % gridSize }
  | .DOWN => { h with y := (h.y + 1) % gridSize }
  | .LEFT => { h with x := (h.x + gridSize - 1) % gridSize }
  | .RIGHT => { h with x := (h.x + 1) % gridSize }

/-- Descending by score: each entry's score is `≥` every later entry's. -/
def SortedDesc (l : List ScoreEntry) : Prop :=
  l.Pairwise (fun a b => b.score ≤ a.score)

/-- A Running state one cell to the left of the food: the next tick eats. -/
def eatState : GameState :=
  { snake := [⟨10, 10⟩], food := ⟨11, 10⟩, direction := .RIGHT,
    gameStarted := true, gameOver := false, paused := false, score := 0,
    showNameInput := false }

/-- A Running state whose food is nowhere near the head. -/
def plainState : GameState :=
  { snake := [⟨10, 10⟩], food := ⟨5, 5⟩, direction := .RIGHT,
    gameStarted := true, gameOver := false, paused := false, score := 0,
    showNameInput := false }

/-- The state after the plain move from `plainState`. -/
def plainStateMoved : GameState :=
  { plainState with snake := [⟨11, 10⟩] }

/-- A NotStarted state (game neither started nor over). -/
def notStartedState : GameState :=
  { snake := [⟨10, 10⟩], food := ⟨5, 5⟩, direction := .RIGHT,
    gameStarted := false, gameOver := false, paused := false, score := 0,
    showNameInput := false }

/-- A Running state whose head is about to run into the body at index 3:
snake occupies a 2×2 block and the head turns DOWN into the last segment. -/
def collideState : GameState :=
  { snake := [⟨5, 5⟩, ⟨6, 5⟩, ⟨6, 6⟩, ⟨5, 6⟩], food := ⟨0, 0⟩, direction := .DOWN,
    gameStarted := true, gameOver := false, paused := false, score := 0,
    showNameInput := false }

/-- A two-segment snake chasing its own tail cell: moving LEFT from `(5,5)`
lands on the tail segment `(4,5)`, which would be vacated this same tick. -/
def tailChaseState : GameState :=
  { snake := [⟨5, 5⟩, ⟨4, 5⟩], food := ⟨0, 0⟩, direction := .LEFT,
    gameStarted := true, gameOver := false, paused := false, score := 0,
    showNameInput := false }

/-- Five stored entries with scores 9 down to 5. -/
def fiveScores : List ScoreEntry :=
  [⟨"a", 9⟩, ⟨"b", 8⟩, ⟨"c", 7⟩, ⟨"d", 6⟩, ⟨"e", 5⟩]

/-! ## Helper lemmas -/

/-- The JS coordinate-wise comparison agrees with cell equality. -/
theorem cellEq_iff (a b : Cell) : (a.x == b.x && a.y == b.y) = true ↔ a = b := by
  cases a
  cases b
  simp [Cell.mk.injEq]

theorem collidesSelf_cons_of_mem {h head : Cell} {t : List Cell} (hm : head ∈ t) :
    collidesSelf (h :: t) head = true := by
  simp only [collidesSelf, List.drop_succ_cons, List.drop_zero, List.any_eq_true]
  exact ⟨head, hm, by simp⟩

/-- A self-collision ends the game: `moveSnake` only sets the game-over
flags and leaves every other field, the snake included, untouched. -/
theorem moveSnake_of_collision (draws : Nat → Cell) (fuel : Nat) (s : GameState)
    {h : Cell} {t : List Cell} (hs : s.snake = h :: t)
    (hc : collidesSelf s.snake (moveHead s.direction h) = true) :
    moveSnake draws fuel s = some { s with gameOver := true, showNameInput := true } := by
  unfold moveSnake
  rw [hs] at hc ⊢
  simp [hc]

/-! ## Claims -/

/-- C3: for every direction and in-range head cell, the tick's new head is
the head moved one cell in that direction with toroidal wraparound (each
coordinate taken modulo `gridSize`), hence always in range; in particular a
head at `(19,10)` moving RIGHT becomes `(0,10)`. -/
theorem moveHead_wraps (d : Direction) (c : Cell)
    (hx : c.x < gridSize) (hy : c.y < gridSize) :
    moveHead d c = specMoveWrap d c ∧
    (moveHead d c).x < gridSize ∧ (moveHead d c).y < gridSize ∧
    moveHead .RIGHT ⟨19, 10⟩ = ⟨0, 10⟩ := by
  obtain ⟨x, y⟩ := c
  simp only [gridSize] at hx hy
  refine ⟨?_, ?_, ?_, by decide⟩ <;>
    cases d <;>
      simp only [moveHead, specMoveWrap, gridSize, Cell.mk.injEq, true_and, and_true] <;>
      (try split_ifs) <;> omega

/-- C3 witness: applied to the head `(19,10)` moving RIGHT. -/
theorem moveHead_wraps_witness :
    (19 : Nat) < gridSize ∧ (10 : Nat) < gridSize ∧
    (moveHead .RIGHT ⟨19, 10⟩ = specMoveWrap .RIGHT ⟨19, 10⟩ ∧
      (moveHead .RIGHT ⟨19, 10⟩).x < gridSize ∧
      (moveHead .RIGHT ⟨19, 10⟩).y < gridSize ∧
      moveHead .RIGHT ⟨19, 10⟩ = ⟨0, 10⟩) :=
  ⟨by decide, by decide, moveHead_wraps .RIGHT ⟨19, 10⟩ (by decide) (by decide)⟩

/-- C2: when the new head coincides with a body cell at index `> 0`, the
tick transitions to GameOver with the snake unchanged, the game loop no
longer runs the tick body, and direction requests leave the snake alone:
the snake is frozen until reset. -/
theorem selfCollision_freezes (draws : Nat → Cell) (fuel : Nat) (s : GameState)
    (h : Cell) (t : List Cell) (hs : s.snake = h :: t)
    (hcol : moveHead s.direction h ∈ t) :
    moveSnake draws fuel s = some { s with gameOver := true, showNameInput := true } ∧
    (∀ draws2 fuel2,
      gameLoopStep draws2 fuel2 { s with gameOver := true, showNameInput := true } =
        some { s with gameOver := true, showNameInput := true }) ∧
    (∀ d, (handleDirectionChange d
        { s with gameOver := true, showNameInput := true }).snake = s.snake) := by
  refine ⟨?_, ?_, ?_⟩
  · exact moveSnake_of_collision draws fuel s hs
      (by rw [hs]; exact collidesSelf_cons_of_mem hcol)
  · intro draws2 fuel2
    simp [gameLoopStep]
  · intro d
    unfold handleDirectionChange
    split <;> simp

/-- C2 witness: a concrete 2×2 snake turning DOWN into its body at index 3
freezes exactly as the theorem states. -/
theorem selfCollision_freezes_witness :
    collideState.snake = ⟨5, 5⟩ :: [⟨6, 5⟩, ⟨6, 6⟩, ⟨5, 6⟩] ∧
    moveHead collideState.direction ⟨5, 5⟩ ∈ [(⟨6, 5⟩ : Cell), ⟨6, 6⟩, ⟨5, 6⟩] ∧
    moveSnake (fun _ => ⟨0, 0⟩) 1 collideState =
      some { collideState with gameOver := true, showNameInput := true } :=
  ⟨rfl, by decide,
    (selfCollision_freezes (fun _ => ⟨0, 0⟩) 1 collideState ⟨5, 5⟩
      [⟨6, 5⟩, ⟨6, 6⟩, ⟨5, 6⟩] rfl (by decide)).1⟩

/-- C10: a snake of length at least 2 whose new head lands on the cell held
by its last tail segment dies, even though that cell would have been vacated
this very tick: the collision check runs against the full pre-move body,
before the tail is dropped. -/
theorem tailChase_gameOver (draws : Nat → Cell) (fuel : Nat) (s : GameState)
    (h : Cell) (t : List Cell) (hs : s.snake = h :: t) (hne : t ≠ [])
    (hlast : t.getLast? = some (moveHead s.direction h))
    (hfood : moveHead s.direction h ≠ s.food) :
    moveSnake draws fuel s = some { s with gameOver := true, showNameInput := true } := by
  refine moveSnake_of_collision draws fuel s hs ?_
  rw [hs]
  obtain ⟨hne2, heq⟩ :=
    List.mem_getLast?_eq_getLast (show moveHead s.direction h ∈ t.getLast? from hlast)
  exact collidesSelf_cons_of_mem (heq ▸ List.getLast_mem hne2)

/-- C10 witness: the concrete two-segment tail chase ends the game. -/
theorem tailChase_gameOver_witness :
    tailChaseState.snake = ⟨5, 5⟩ :: [⟨4, 5⟩] ∧
    [(⟨4, 5⟩ : Cell)].getLast? = some (moveHead tailChaseState.direction ⟨5, 5⟩) ∧
    moveHead tailChaseState.direction ⟨5, 5⟩ ≠ tailChaseState.food ∧
    moveSnake (fun _ => ⟨0, 0⟩) 1 tailChaseState =
      some { tailChaseState with gameOver := true, showNameInput := true } :=
  ⟨rfl, by decide, by decide,
    tailChase_gameOver (fun _ => ⟨0, 0⟩) 1 tailChaseState ⟨5, 5⟩ [⟨4, 5⟩] rfl
      (by decide) (by decide) (by decide)⟩

/-- C4: a tick that does not end in GameOver leaves the snake's length
unchanged when the new head misses the food, and grows it by exactly one
when the new head equals the food cell. -/
theorem tick_length (draws : Nat → Cell) (fuel : Nat) (s r : GameState)
    (h : Cell) (t : List Cell) (hs : s.snake = h :: t)
    (hr : moveSnake draws fuel s = some r) (hgo : r.gameOver = false) :
    (moveHead s.direction h = s.food → r.snake.length = s.snake.length + 1) ∧
    (moveHead s.direction h ≠ s.food → r.snake.length = s.snake.length) := by
  unfold moveSnake at hr
  rw [hs] at hr
  cases hc : collidesSelf (h :: t) (moveHead s.direction h) with
  | true =>
    simp only [hc, if_true] at hr
    cases hr
    simp at hgo
  | false =>
    simp only [hc, Bool.false_eq_true, if_false] at hr
    cases hf : ((moveHead s.direction h).x == s.food.x &&
        (moveHead s.direction h).y == s.food.y) with
    | true =>
      have hfeq : moveHead s.direction h = s.food := (cellEq_iff _ _).mp hf
      simp only [hf, if_true] at hr
      rcases Option.map_eq_some'.mp hr with ⟨nf, _, hrr⟩
      subst hrr
      refine ⟨fun _ => by simp [hs], fun hne => absurd hfeq hne⟩
    | false =>
      have hfne : moveHead s.direction h ≠ s.food := fun heq => by
        rw [(cellEq_iff _ _).mpr heq] at hf
        cases hf
      simp only [hf, Bool.false_eq_true, if_false] at hr
      cases hr
      exact ⟨fun heq => absurd heq hfne, fun _ => by simp [hs]⟩

/-- C4 witness: the concrete plain move keeps length 1. -/
theorem tick_length_witness :
    plainState.snake = ⟨10, 10⟩ :: [] ∧
    moveSnake (fun _ => ⟨0, 0⟩) 1 plainState = some plainStateMoved ∧
    plainStateMoved.gameOver = false ∧
    moveHead plainState.direction ⟨10, 10⟩ ≠ plainState.food ∧
    plainStateMoved.snake.length = plainState.snake.length :=
  ⟨rfl, by decide, rfl, by decide,
    (tick_length (fun _ => ⟨0, 0⟩) 1 plainState plainStateMoved ⟨10, 10⟩ [] rfl
      (by decide) rfl).2 (by decide)⟩

/-- C1 (code bug): after the tick from `eatState` eats the food at
`(11,10)`, `generateFood` validates its draw against the *pre-move* snake
`[(10,10)]` still held by `gameStateRef.current`, so the draw `(11,10)` —
the cell of the newly added head — is accepted, and the new food sits under
the snake's head, violating the food/snake disjointness the spec (and the
code's own comment) promise. -/
theorem food_respawns_on_head :
    generateFood eatState.snake (fun _ => ⟨11, 10⟩) 1 = some ⟨11, 10⟩ ∧
    moveSnake (fun _ => ⟨11, 10⟩) 1 eatState =
      some { eatState with
              snake := [⟨11, 10⟩, ⟨10, 10⟩]
              food := ⟨11, 10⟩
              score := 1 } ∧
    (⟨11, 10⟩ : Cell) ∈ [(⟨11, 10⟩ : Cell), ⟨10, 10⟩] := by
  refine ⟨by decide, by decide, by decide⟩

/-- The reversal test of `handleDirectionChange` blocks exactly the direct
opposite of the current direction. -/
theorem turnAllowed_eq (cur nd : Direction) :
    turnAllowed cur nd = decide (nd ≠ opposite cur) := by
  cases cur <;> cases nd <;> rfl

/-- C5 counterexample: in a NotStarted state (not Running), a direction
request is not a no-op — it starts the game and applies the direction
change. -/
theorem direction_request_not_noop :
    notStartedState.gameStarted = false ∧ notStartedState.gameOver = false ∧
    handleDirectionChange .UP notStartedState =
      { notStartedState with gameStarted := true, direction := .UP } ∧
    handleDirectionChange .UP notStartedState ≠ notStartedState := by
  refine ⟨rfl, rfl, by decide, by decide⟩

/-- C5 (amended): a direction request `d` is rejected (direction unchanged)
when `d` reverses the current direction or the snapshot state is Paused or
GameOver; in a Running state a non-reversal updates the direction used by
the next tick and changes nothing else.  In a NotStarted state a request is
not a pure no-op: it starts the game; a button/touch request
(`handleDirectionChange`) then also applies a non-reversing direction
change, whereas a keyboard arrow (`handleKeyPress`) starts the game with
the direction unchanged, because the running guard still reads the stale
not-yet-started snapshot and returns before the direction switch. -/
theorem direction_request_spec (s : GameState) (d : Direction) :
    (s.gameOver = true → handleDirectionChange d s = s) ∧
    (s.gameStarted = true → s.paused = true → s.gameOver = false →
      handleDirectionChange d s = s) ∧
    (s.gameStarted = true → s.paused = false → s.gameOver = false →
      d = opposite s.direction → handleDirectionChange d s = s) ∧
    (s.gameStarted = true → s.paused = false → s.gameOver = false →
      d ≠ opposite s.direction →
      handleDirectionChange d s = { s with direction := d }) ∧
    (s.gameStarted = false → s.gameOver = false → s.paused = false →
      d ≠ opposite s.direction →
      handleDirectionChange d s = { s with gameStarted := true, direction := d }) ∧
    (s.gameStarted = false → s.gameOver = false → s.paused = false →
      d = opposite s.direction →
      handleDirectionChange d s = { s with gameStarted := true }) ∧
    (s.gameOver = true → handleKeyPress (.arrow d) s = s) ∧
    (s.gameStarted = true → s.paused = true → s.gameOver = false →
      handleKeyPress (.arrow d) s = s) ∧
    (s.gameStarted = true → s.paused = false → s.gameOver = false →
      d = opposite s.direction → handleKeyPress (.arrow d) s = s) ∧
    (s.gameStarted = true → s.paused = false → s.gameOver = false →
      d ≠ opposite s.direction →
      handleKeyPress (.arrow d) s = { s with direction := d }) ∧
    (s.gameStarted = false → s.gameOver = false →
      handleKeyPress (.arrow d) s = { s with gameStarted := true }) := by
  obtain ⟨sn, fd, dir, gs, go, pa, sc, sni⟩ := s
  refine ⟨?_, ?_, ?_, ?_, ?_, ?_, ?_, ?_, ?_, ?_, ?_⟩ <;>
    first
      | (intro hgs hp hgo hd
         simp only at hgs hp hgo
         subst hgs
         subst hp
         subst hgo
         simp [handleDirectionChange, handleKeyPress, turnAllowed_eq, hd])
      | (intro hgs hp hgo
         simp only at hgs hp hgo
         subst hgs
         subst hp
         subst hgo
         simp [handleDirectionChange, handleKeyPress])
      | (intro hgs hgo
         simp only at hgs hgo
         subst hgs
         subst hgo
         simp [handleKeyPress])
      | (intro hgo
         simp only at hgo
         subst hgo
         simp [handleDirectionChange, handleKeyPress])

/-- C5 witness: from a concrete Running state heading RIGHT, a button
request UP changes only the direction; from a concrete NotStarted state, a
keyboard arrow UP starts the game without changing the direction. -/
theorem direction_request_spec_witness :
    plainState.gameStarted = true ∧ plainState.paused = false ∧
    plainState.gameOver = false ∧ Direction.UP ≠ opposite plainState.direction ∧
    handleDirectionChange .UP plainState = { plainState with direction := .UP } ∧
    notStartedState.gameStarted = false ∧ notStartedState.gameOver = false ∧
    handleKeyPress (.arrow .UP) notStartedState =
      { notStartedState with gameStarted := true } :=
  ⟨rfl, rfl, rfl, by decide,
    (direction_request_spec plainState .UP).2.2.2.1 rfl rfl rfl (by decide),
    rfl, rfl,
    (direction_request_spec notStartedState .UP).2.2.2.2.2.2.2.2.2.2 rfl rfl⟩

/-- C8: the high-score loader returns the parsed array exactly when it is an
array all of whose elements are non-null objects carrying `name` and `score`
fields with a numeric score; a missing value, a non-array, or an array with
a malformed element all yield the empty list, and the loader is a total
function — the caller never observes a failure. -/
theorem load_spec (saved : Option JValue) :
    (∀ items, saved = some (.jarr items) → items.all isValidEntry = true →
      loadHighScores saved = items) ∧
    (saved = none → loadHighScores saved = []) ∧
    (∀ items, saved = some (.jarr items) → items.all isValidEntry = false →
      loadHighScores saved = []) ∧
    (∀ v, saved = some v → (∀ items, v ≠ .jarr items) → loadHighScores saved = []) ∧
    (loadHighScores saved ≠ [] →
      ∃ items, saved = some (.jarr items) ∧ items.all isValidEntry = true ∧
        loadHighScores saved = items) := by
  refine ⟨?_, ?_, ?_, ?_, ?_⟩
  · intro items hsv hval
    subst hsv
    simp [loadHighScores, hval]
  · intro hsv
    subst hsv
    rfl
  · intro items hsv hval
    subst hsv
    simp [loadHighScores, hval]
  · intro v hsv hnarr
    subst hsv
    cases v <;> first
      | rfl
      | exact absurd rfl (hnarr _)
  · intro hne
    cases saved with
    | none => exact absurd rfl hne
    | some v =>
      cases v with
      | jarr items =>
        cases hval : items.all isValidEntry with
        | true => exact ⟨items, rfl, hval, by simp [loadHighScores, hval]⟩
        | false => exact absurd (by simp [loadHighScores, hval]) hne
      | jnull => exact absurd rfl hne
      | jbool b => exact absurd rfl hne
      | jnum n => exact absurd rfl hne
      | jstr str => exact absurd rfl hne
      | jobj fields => exact absurd rfl hne

/-- C8 witness: a persisted array containing a bare number is malformed and
loads as the empty list. -/
theorem load_spec_witness :
    [JValue.jnum 3].all isValidEntry = false ∧
    loadHighScores (some (.jarr [.jnum 3])) = [] :=
  ⟨rfl, (load_spec (some (.jarr [.jnum 3]))).2.2.1 [.jnum 3] rfl rfl⟩

/-- C9: for levels 1 through 10, `calculateSpeed` is the claimed rounded
linear interpolation from `initialSpeed = 165` down to `minSpeed = 70`, with
`speed(1) = 165`, `speed(10) = 70`, and it is monotonically non-increasing
in the level. -/
theorem calculateSpeed_spec (lvl : Int) (h1 : 1 ≤ lvl) (h10 : lvl ≤ 10) :
    calculateSpeed lvl = round ((165 : ℚ) - (lvl - 1) / 9 * (165 - 70)) ∧
    calculateSpeed 1 = 165 ∧ calculateSpeed 10 = 70 ∧
    (∀ l l' : Int, 1 ≤ l → l ≤ l' → l' ≤ 10 → calculateSpeed l' ≤ calculateSpeed l) := by
  have v1 : calculateSpeed 1 = 165 := by norm_num [calculateSpeed, round_eq]
  have v2 : calculateSpeed 2 = 154 := by norm_num [calculateSpeed, round_eq]
  have v3 : calculateSpeed 3 = 144 := by norm_num [calculateSpeed, round_eq]
  have v4 : calculateSpeed 4 = 133 := by norm_num [calculateSpeed, round_eq]
  have v5 : calculateSpeed 5 = 123 := by norm_num [calculateSpeed, round_eq]
  have v6 : calculateSpeed 6 = 112 := by norm_num [calculateSpeed, round_eq]
  have v7 : calculateSpeed 7 = 102 := by norm_num [calculateSpeed, round_eq]
  have v8 : calculateSpeed 8 = 91 := by norm_num [calculateSpeed, round_eq]
  have v9 : calculateSpeed 9 = 81 := by norm_num [calculateSpeed, round_eq]
  have v10 : calculateSpeed 10 = 70 := by norm_num [calculateSpeed, round_eq]
  refine ⟨rfl, v1, v10, ?_⟩
  intro l l' hl hll hl'
  have hl1 : 1 ≤ l := hl
  have hl10 : l ≤ 10 := le_trans hll hl'
  have hl'1 : 1 ≤ l' := le_trans hl hll
  interval_cases l <;> interval_cases l' <;> simp_all

/-- C9 witness: applied at level 3. -/
theorem calculateSpeed_spec_witness :
    (1 : Int) ≤ 3 ∧ (3 : Int) ≤ 10 ∧
    calculateSpeed 3 = round ((165 : ℚ) - ((3 : Int) - 1) / 9 * (165 - 70)) ∧
    calculateSpeed 1 = 165 ∧ calculateSpeed 10 = 70 :=
  ⟨by norm_num, by norm_num,
    (calculateSpeed_spec 3 (by norm_num) (by norm_num)).1,
    (calculateSpeed_spec 3 (by norm_num) (by norm_num)).2.1,
    (calculateSpeed_spec 3 (by norm_num) (by norm_num)).2.2.1⟩

/-- An always-occupied draw stream starves the retry loop at every fuel. -/
theorem generateFoodAux_none_of_occupied (snake : List Cell) (draws : Nat → Cell)
    (hocc : ∀ k, isOnSnake snake (draws k) = true)
    (hlen : snake.length < gridSize * gridSize - 1) :
    ∀ fuel i, generateFoodAux snake draws i fuel = none := by
  intro fuel
  induction fuel with
  | zero => intro i; rfl
  | succ n ih =>
    intro i
    simp only [generateFoodAux, hocc i, decide_eq_true hlen, Bool.and_self, if_true]
    exact ih (i + 1)

/-- C6 counterexample: with the snake at `(0,0)` (length `1 <
gridSize²−1`) and every draw landing on `(0,0)`, the `generateFood`
recursion never returns: termination does not hold for every snake
configuration and draw sequence. -/
theorem generateFood_not_always_terminating :
    ¬ generateFoodTerminates [⟨0, 0⟩] (fun _ => ⟨0, 0⟩) := by
  rintro ⟨fuel, hsome⟩
  rw [generateFood,
    generateFoodAux_none_of_occupied [⟨0, 0⟩] (fun _ => ⟨0, 0⟩)
      (fun _ => rfl) (by decide) fuel 0] at hsome
  cases hsome

/-- If some draw at or after position `i` is free, the retry loop returns
within that many steps. -/
theorem generateFoodAux_some_of_free (snake : List Cell) (draws : Nat → Cell) :
    ∀ k i, isOnSnake snake (draws (i + k)) = false →
      (generateFoodAux snake draws i (k + 1)).isSome = true := by
  intro k
  induction k with
  | zero =>
    intro i hfree
    simp only [Nat.add_zero] at hfree
    simp [generateFoodAux, hfree]
  | succ n ih =>
    intro i hfree
    rw [generateFoodAux]
    cases hocc : (isOnSnake snake (draws i) &&
        decide (snake.length < gridSize * gridSize - 1)) with
    | true =>
      simp only [hocc, if_true]
      exact ih (i + 1) (by rw [show i + 1 + n = i + (n + 1) by omega]; exact hfree)
    | false => simp [hocc]

/-- C6 (amended): the retry loop stops immediately — accepting the draw even
if it is on the snake — once the snake's length is at least `gridSize²−1`;
it terminates whenever that bound holds or some draw is unoccupied, and any
accepted cell is off the snake unless the length bound disabled the retry;
but for a smaller snake and a draw sequence that never leaves the snake it
retries forever (no hard cap), as the counterexample shows. -/
theorem generateFood_termination_cases (snake : List Cell) (draws : Nat → Cell) :
    (gridSize * gridSize - 1 ≤ snake.length →
      generateFood snake draws 1 = some (draws 0)) ∧
    ((∃ k, isOnSnake snake (draws k) = false) →
      generateFoodTerminates snake draws) ∧
    (∀ fuel c, generateFood snake draws fuel = some c →
      isOnSnake snake c = false ∨ gridSize * gridSize - 1 ≤ snake.length) := by
  refine ⟨?_, ?_, ?_⟩
  · intro hlen
    have hnot : ¬ snake.length < gridSize * gridSize - 1 := not_lt.mpr hlen
    simp [generateFood, generateFoodAux, hnot]
  · rintro ⟨k, hfree⟩
    exact ⟨k + 1, generateFoodAux_some_of_free snake draws k 0
      (by rw [Nat.zero_add]; exact hfree)⟩
  · intro fuel
    suffices h : ∀ fuel i c, generateFoodAux snake draws i fuel = some c →
        isOnSnake snake c = false ∨ gridSize * gridSize - 1 ≤ snake.length by
      intro c hc
      exact h fuel 0 c hc
    intro fl
    induction fl with
    | zero => intro i c hc; cases hc
    | succ n ih =>
      intro i c hc
      rw [generateFoodAux] at hc
      by_cases hocc : isOnSnake snake (draws i) = true
      · by_cases hlen : snake.length < gridSize * gridSize - 1
        · simp only [hocc, decide_eq_true hlen, Bool.and_self, if_true] at hc
          exact ih (i + 1) c hc
        · exact Or.inr (not_lt.mp hlen)
      · rw [Bool.not_eq_true] at hocc
        simp only [hocc, Bool.false_and, Bool.false_eq_true, if_false,
          Option.some.injEq] at hc
        exact Or.inl (hc ▸ hocc)

/-- C6 witness: with the snake at `(0,0)` and draws walking along the x
axis, the second draw `(1,0)` is free, so generation terminates; and a
snake filling all but one cell stops retrying at once. -/
theorem generateFood_termination_cases_witness :
    (∃ k, isOnSnake [(⟨0, 0⟩ : Cell)] ((fun n => (⟨n, 0⟩ : Cell)) k) = false) ∧
    generateFoodTerminates [⟨0, 0⟩] (fun n => (⟨n, 0⟩ : Cell)) :=
  ⟨⟨1, by decide⟩,
    (generateFood_termination_cases [⟨0, 0⟩] (fun n => (⟨n, 0⟩ : Cell))).2.1
      ⟨1, by decide⟩⟩

theorem insertDesc_perm (x : ScoreEntry) (l : List ScoreEntry) :
    (insertDesc x l).Perm (x :: l) := by
  induction l with
  | nil => exact List.Perm.refl _
  | cons y ys ih =>
    rw [insertDesc]
    split
    · exact List.Perm.refl _
    · exact (ih.cons y).trans (List.Perm.swap x y ys)

theorem sortDesc_perm (l : List ScoreEntry) : (sortDesc l).Perm l := by
  induction l with
  | nil => exact List.Perm.refl _
  | cons x xs ih => exact (insertDesc_perm x (sortDesc xs)).trans (ih.cons x)

theorem sortedDesc_insertDesc (x : ScoreEntry) (l : List ScoreEntry)
    (hl : SortedDesc l) : SortedDesc (insertDesc x l) := by
  induction l with
  | nil => exact List.pairwise_singleton _ _
  | cons y ys ih =>
    rcases List.pairwise_cons.mp hl with ⟨hy, hys⟩
    rw [insertDesc]
    split
    · rename_i hxy
      refine List.pairwise_cons.mpr ⟨?_, hl⟩
      intro b hb
      rcases List.mem_cons.mp hb with rfl | hb2
      · exact hxy
      · exact le_trans (hy b hb2) hxy
    · rename_i hxy
      push_neg at hxy
      refine List.pairwise_cons.mpr ⟨?_, ih hys⟩
      intro b hb
      rcases List.mem_cons.mp ((insertDesc_perm x ys).mem_iff.mp hb) with rfl | hb2
      · exact le_of_lt hxy
      · exact hy b hb2

theorem sortedDesc_sortDesc (l : List ScoreEntry) : SortedDesc (sortDesc l) := by
  induction l with
  | nil => exact List.Pairwise.nil
  | cons x xs ih => exact sortedDesc_insertDesc x (sortDesc xs) ih

/-- Insertion commutes with score-level filtering: together with
`filter_sortDesc` this is the stability of the sort — the entries of any
fixed score come out in their input order. -/
theorem filter_insertDesc (x : ScoreEntry) (l : List ScoreEntry) (n : Nat) :
    (insertDesc x l).filter (fun e => e.score == n) =
      (x :: l).filter (fun e => e.score == n) := by
  induction l with
  | nil => rfl
  | cons y ys ih =>
    rw [insertDesc]
    split
    · rfl
    · rename_i hxy
      push_neg at hxy
      by_cases hxn : x.score = n
      · have hyn : ¬ y.score = n := by omega
        simp [List.filter_cons, hxn, hyn, ih]
      · simp [List.filter_cons, hxn, ih]

theorem filter_sortDesc (l : List ScoreEntry) (n : Nat) :
    (sortDesc l).filter (fun e => e.score == n) =
      l.filter (fun e => e.score == n) := by
  induction l with
  | nil => rfl
  | cons x xs ih =>
    rw [sortDesc, filter_insertDesc]
    simp only [List.filter_cons, ih]

/-- C7 (amended): `saveHighScore` trims the name, defaults it to
"Anonymous" when the trimmed name is blank, and stores the trimmed name in
full — the 15-character cap is enforced upstream by the input field's
`maxLength`, not here; it appends the entry, sorts descending by score with
a stable sort (entries of equal score keep their relative insertion order,
stated via score-level filters), keeps the top 5, and persists that result;
consequently with five stored higher scores a 6th lower score does not
appear, while a score beating some stored entry always enters the kept 5. -/
theorem saveHighScore_spec (hs : List ScoreEntry) (nm : String) (sc : Nat) :
    saveHighScore hs nm sc =
      (sortDesc (hs ++ [⟨defaultName nm, sc⟩])).take 5 ∧
    (jsTrim nm = "" → defaultName nm = "Anonymous") ∧
    (jsTrim nm ≠ "" → defaultName nm = jsTrim nm) ∧
    (saveHighScore hs nm sc).length ≤ 5 ∧
    SortedDesc (saveHighScore hs nm sc) ∧
    (∀ n, (sortDesc (hs ++ [(⟨defaultName nm, sc⟩ : ScoreEntry)])).filter
        (fun e => e.score == n) =
      (hs ++ [(⟨defaultName nm, sc⟩ : ScoreEntry)]).filter (fun e => e.score == n)) ∧
    (hs.length = 5 → (∀ e ∈ hs, sc < e.score) →
      (⟨defaultName nm, sc⟩ : ScoreEntry) ∉ saveHighScore hs nm sc) ∧
    (hs.length = 5 → (∃ e ∈ hs, e.score < sc) →
      (⟨defaultName nm, sc⟩ : ScoreEntry) ∈ saveHighScore hs nm sc) := by
  refine ⟨rfl, ?_, ?_, ?_, ?_, ?_, ?_, ?_⟩
  · intro hb
    simp [defaultName, hb]
  · intro hb
    simp [defaultName, hb]
  · exact List.length_take_le 5 _
  · exact List.Pairwise.sublist (List.take_sublist 5 _) (sortedDesc_sortDesc _)
  · intro n
    exact filter_sortDesc _ n
  · intro hlen hall
    intro hmem
    set nw : ScoreEntry := ⟨defaultName nm, sc⟩ with hnw
    set L : List ScoreEntry := sortDesc (hs ++ [nw]) with hLdef
    have hLperm : L.Perm (hs ++ [nw]) := sortDesc_perm _
    have hLlen : L.length = 6 := by
      rw [hLperm.length_eq, List.length_append, hlen]
      rfl
    have hdropone : (L.drop 5).length = 1 := by
      rw [List.length_drop, hLlen]
    obtain ⟨z, hz⟩ := List.length_eq_one.mp hdropone
    have hnotin : nw ∉ hs := by
      intro hin
      exact lt_irrefl sc (hall nw hin)
    have hcount1 : L.count nw = 1 := by
      rw [hLperm.count_eq, List.count_append, List.count_eq_zero.mpr hnotin]
      simp
    have hsplit := List.take_append_drop 5 L
    have hpair : ∀ a ∈ L.take 5, ∀ b ∈ L.drop 5, b.score ≤ a.score := by
      have hsorted : SortedDesc L := sortedDesc_sortDesc _
      rw [← hsplit] at hsorted
      exact (List.pairwise_append.mp hsorted).2.2
    have hzmem : z ∈ L.drop 5 := by rw [hz]; exact List.mem_singleton_self z
    have hzL : z ∈ L := List.mem_of_mem_drop hzmem
    have hzsc : z.score ≤ sc := hpair nw hmem z hzmem
    rcases List.mem_append.mp (hLperm.mem_iff.mp hzL) with hzh | hznw
    · exact absurd hzsc (not_le.mpr (hall z hzh))
    · have hznw2 : z = nw := by simpa using hznw
      have hcount2 : 2 ≤ L.count nw := by
        calc 2 = 1 + 1 := rfl
        _ ≤ (L.take 5).count nw + (L.drop 5).count nw := by
            refine Nat.add_le_add ?_ ?_
            · exact List.one_le_count_iff.mpr hmem
            · exact List.one_le_count_iff.mpr (hznw2 ▸ hzmem)
        _ = L.count nw := by rw [← List.count_append, hsplit]
      omega
  · rintro hlen ⟨e, he, hesc⟩
    set nw : ScoreEntry := ⟨defaultName nm, sc⟩ with hnw
    set L : List ScoreEntry := sortDesc (hs ++ [nw]) with hLdef
    have hLperm : L.Perm (hs ++ [nw]) := sortDesc_perm _
    have hsplit := List.take_append_drop 5 L
    have hLlen : L.length = 6 := by
      rw [hLperm.length_eq, List.length_append, hlen]
      rfl
    have hdropone : (L.drop 5).length = 1 := by
      rw [List.length_drop, hLlen]
    obtain ⟨z, hz⟩ := List.length_eq_one.mp hdropone
    have hpair : ∀ a ∈ L.take 5, ∀ b ∈ L.drop 5, b.score ≤ a.score := by
      have hsorted : SortedDesc L := sortedDesc_sortDesc _
      rw [← hsplit] at hsorted
      exact (List.pairwise_append.mp hsorted).2.2
    have hnwL : nw ∈ L := hLperm.mem_iff.mpr (by simp)
    rw [← hsplit] at hnwL
    rcases List.mem_append.mp hnwL with h5 | hdropmem
    · exact h5
    · exfalso
      have hznw : z = nw := by
        rw [hz] at hdropmem
        exact (List.mem_singleton.mp hdropmem).symm
      have heL : e ∈ L := hLperm.mem_iff.mpr (List.mem_append_left _ he)
      rw [← hsplit] at heL
      rcases List.mem_append.mp heL with he5 | hedrop
      · have hrel := hpair e he5 z (by rw [hz]; exact List.mem_singleton_self z)
        rw [hznw] at hrel
        change sc ≤ e.score at hrel
        omega
      · rw [hz] at hedrop
        have : e = nw := by rw [← hznw]; simpa using hedrop
        have : e.score = sc := by rw [this]
        omega

/-- C7 counterexample: `saveHighScore` does not truncate to 15 characters —
a 16-character submitted name is stored in full, so the claim's "stores at
most 15 characters of it" fails on the function. -/
theorem saveHighScore_no_truncation :
    saveHighScore [] "ABCDEFGHIJKLMNOP" 3 = [⟨"ABCDEFGHIJKLMNOP", 3⟩] ∧
    "ABCDEFGHIJKLMNOP".length = 16 := by
  refine ⟨by decide, by decide⟩

/-- C7 witness: submitting score 10 against five stored scores 9..5 keeps
the new entry among the top 5. -/
theorem saveHighScore_spec_witness :
    fiveScores.length = 5 ∧ (∃ e ∈ fiveScores, e.score < 10) ∧
    (⟨defaultName "Zed", 10⟩ : ScoreEntry) ∈ saveHighScore fiveScores "Zed" 10 :=
  ⟨rfl, ⟨⟨"e", 5⟩, by decide, by decide⟩,
    (saveHighScore_spec fiveScores "Zed" 10).2.2.2.2.2.2.2 rfl
      ⟨⟨"e", 5⟩, by decide, by decide⟩⟩

end Snake
